import Mathlib

/-!
Verification of the round-robin balancer in `realm_lb/src/round_robin.rs`
(smooth weighted round robin with passive health checking).

The Rust code is shallowly embedded: the per-node record `Node`, the balancer
`RoundRobin`, and the three operations `next`, `on_success`, `on_failure` are
translated as pure functions on explicit state.  The wall clock read by
`now_secs()` becomes an explicit `now : Nat` argument.  The `u32` atomics
(`fails`, `checked`) are modelled as `Nat` with wrap-around `% 2^32` where the
source performs `u32` arithmetic.  The `i16` fields are covered by two layers:
`passLoopW`/`nextW` perform the source's wrapping `i16` arithmetic through
`i16wrap` (the stored values of release builds; debug builds panic exactly
where `i16wrap` is not the identity), while `passLoop`/`next` compute the
unwrapped mathematical values of the same additions, which is how "this
addition overflows" and "this pass stays inside the i16 range" are stated; the
two layers are proved to agree whenever the pass stays in range.  The weights
of `new(weights: &[u8], ..)` are `Nat` carrying the `u8` bound `≤ 255` as a
hypothesis where a claim depends on it, and the concrete inputs of every
counterexample and witness respect it.
-/

namespace RealmLB

/-- Health-check configuration: `HealthCheckConfig { max_fails: u32, fail_timeout_secs: u32 }`. -/
structure HealthCheckConfig where
  max_fails : Nat
  fail_timeout_secs : Nat
deriving DecidableEq

/-- Round-robin node (struct `Node`): `cw: i16`, `ew: u8`, `weight: u8`,
`token: Token`, `fails: AtomicU32`, `checked: AtomicU32`. -/
structure Node where
  cw : Int
  ew : Nat
  weight : Nat
  token : Nat
  fails : Nat
  checked : Nat
deriving DecidableEq

/-- Round robin balancer (struct `RoundRobin`). -/
structure RoundRobin where
  nodes : List Node
  total : Nat
  config : Option HealthCheckConfig
deriving DecidableEq

/-- Modulus of `u32` arithmetic. -/
def u32lim : Nat := 4294967296

/-- Node construction in `RoundRobin::new`: one node per weight, `ew = weight`,
`cw = 0`, token = position (`weights.iter().enumerate().map(...)`). -/
def mkNodes (i : Nat) : List Nat → List Node
  | [] => []
  | w :: ws =>
    { cw := 0, ew := w, weight := w, token := i, fails := 0, checked := 0 } :: mkNodes (i + 1) ws

/-- Constructor `RoundRobin::new` (the `assert!(weights.len() <= u8::MAX)` is a
precondition carried as a hypothesis where relevant): with `weights.len() <= 1`
the node registry stays empty. -/
def RoundRobin.new (weights : List Nat) (config : Option HealthCheckConfig) : RoundRobin :=
  if weights.length ≤ 1 then
    { nodes := [], total := weights.length, config := config }
  else
    { nodes := mkNodes 0 weights, total := weights.length, config := config }

/-- Result of one full selection pass over the node list (lines 79-111 of the
source): updated nodes, running total weight `tw`, provisional winner `best`
(absolute index paired with its post-increment `cw`), and `first_token`. -/
structure PassOut where
  nodes : List Node
  tw : Int
  best : Option (Nat × Int)
  first : Option Nat
deriving DecidableEq

/-- Winner-tracking update: `if p.cw > x.cw { best = Some(p) }`, first node
kept on ties because the comparison is strict. -/
def updBest (best : Option (Nat × Int)) (i : Nat) (c : Int) : Option (Nat × Int) :=
  match best with
  | some b => if b.2 < c then some (i, c) else some b
  | none => some (i, c)

/-- The selection loop of `next` (lines 84-111): per node, the health gate
(skip while cooling down, clear an expired `checked`), then `tw += ew`,
`cw += ew` and the winner comparison. -/
def passLoop (config : Option HealthCheckConfig) (now : Nat) :
    List Node → Nat → Int → Option (Nat × Int) → Option Nat → PassOut
  | [], _, tw, best, first => { nodes := [], tw := tw, best := best, first := first }
  | n :: rest, i, tw, best, first =>
    match config with
    | some cfg =>
      let first' := if first = none then some n.token else first
      if cfg.max_fails ≤ n.fails then
        if now < n.checked then
          let out := passLoop config now rest (i + 1) tw best first'
          { out with nodes := n :: out.nodes }
        else
          let out := passLoop config now rest (i + 1) (tw + n.ew)
            (updBest best i (n.cw + n.ew)) first'
          { out with nodes := { n with checked := 0, cw := n.cw + n.ew } :: out.nodes }
      else
        let out := passLoop config now rest (i + 1) (tw + n.ew)
          (updBest best i (n.cw + n.ew)) first'
        { out with nodes := { n with cw := n.cw + n.ew } :: out.nodes }
    | none =>
      let out := passLoop config now rest (i + 1) (tw + n.ew)
        (updBest best i (n.cw + n.ew)) first
      { out with nodes := { n with cw := n.cw + n.ew } :: out.nodes }

/-- The effect of one pass on a single node, in isolation: unchanged when
skipped, otherwise `cw += ew` with an expired cooldown marker cleared. -/
def passNode (config : Option HealthCheckConfig) (now : Nat) (n : Node) : Node :=
  match config with
  | some cfg =>
    if cfg.max_fails ≤ n.fails then
      if now < n.checked then n
      else { n with checked := 0, cw := n.cw + n.ew }
    else { n with cw := n.cw + n.ew }
  | none => { n with cw := n.cw + n.ew }

/-- Whether a node is skipped by the pass (lines 93-96): health checking
enabled, `fails >= max_fails` and `now < checked`. -/
def passSkip (config : Option HealthCheckConfig) (now : Nat) (n : Node) : Bool :=
  match config with
  | some cfg => decide (cfg.max_fails ≤ n.fails) && decide (now < n.checked)
  | none => false

/-- Contribution of a node to the pass total `tw`: its effective weight,
or `0` when skipped. -/
def passEw (config : Option HealthCheckConfig) (now : Nat) (n : Node) : Int :=
  if passSkip config now n then 0 else (n.ew : Int)

/-- Post-selection update of the winner (lines 117-125): `cw -= tw` and the
gradual effective-weight recovery `if ew < weight { ew += 1 }`. -/
def winnerUpd (n : Node) (tw : Int) : Node :=
  { n with cw := n.cw - tw, ew := if n.ew < n.weight then n.ew + 1 else n.ew }

/-- Selection (`fn next`, lines 72-127), with the clock passed explicitly.
Returns the chosen token (if any) and the successor state. -/
def RoundRobin.next (s : RoundRobin) (now : Nat) : Option Nat × RoundRobin :=
  if s.total ≤ 1 then (some 0, s)
  else
    let out := passLoop s.config now s.nodes 0 0 none none
    match out.best with
    | none => ((if s.config.isSome then out.first else none), { s with nodes := out.nodes })
    | some b =>
      match out.nodes[b.1]? with
      | none => (none, { s with nodes := out.nodes })
      | some n =>
        (some n.token, { s with nodes := out.nodes.set b.1 (winnerUpd n out.tw) })

/-- Mutation of the first node satisfying a predicate, as done by
`nodes.iter_mut().find(..)` followed by a field store. -/
def updateFirst (p : Node → Bool) (f : Node → Node) : List Node → List Node
  | [] => []
  | n :: rest => if p n then f n :: rest else n :: updateFirst p f rest

/-- Outcome report `fn on_success` (lines 129-139): a no-op without health
config, otherwise `fails` of the first node with the given token is reset to 0. -/
def RoundRobin.on_success (s : RoundRobin) (token : Nat) : RoundRobin :=
  match s.config with
  | none => s
  | some _ =>
    let ns := updateFirst (fun n => n.token == token) (fun n => { n with fails := 0 }) s.nodes
    { s with nodes := ns }

/-- The node update performed by `on_failure` (lines 150-156): increment
`fails` (u32 wrap-around); when the incremented count reaches `max_fails`,
store `checked = now + fail_timeout_secs` and reset `ew` to 1. -/
def failUpd (cfg : HealthCheckConfig) (now : Nat) (n : Node) : Node :=
  let fails := (n.fails + 1) % u32lim
  if cfg.max_fails ≤ fails then
    { n with fails := fails, checked := (now + cfg.fail_timeout_secs) % u32lim, ew := 1 }
  else
    { n with fails := fails }

/-- Outcome report `fn on_failure` (lines 141-158), clock explicit. -/
def RoundRobin.on_failure (s : RoundRobin) (token : Nat) (now : Nat) : RoundRobin :=
  match s.config with
  | none => s
  | some cfg =>
    { s with nodes := updateFirst (fun n => n.token == token) (failUpd cfg now) s.nodes }

/-- Iterated selection: state after `k` calls to `next` at a fixed time. -/
def RoundRobin.nextN (s : RoundRobin) (now : Nat) : Nat → RoundRobin
  | 0 => s
  | k + 1 => ((s.next now).2).nextN now k

/-- Iterated failure reporting: state after `k` calls to `on_failure` for one
token at a fixed time. -/
def RoundRobin.failN (s : RoundRobin) (token : Nat) (now : Nat) : Nat → RoundRobin
  | 0 => s
  | k + 1 => ((s.on_failure token now)).failN token now k

/-- Two's-complement wrap into the `i16` range: the value actually stored by
Rust's `i16` addition and subtraction in release builds (a debug build panics
at exactly the inputs where `i16wrap x ≠ x`). -/
def i16wrap (x : Int) : Int := (x + 32768) % 65536 - 32768

/-- The selection loop of `next` (lines 84-111) with the source's `i16`
semantics made explicit: `tw += p.ew as i16` and `p.cw += p.ew as i16` are
wrapping `i16` additions. -/
def passLoopW (config : Option HealthCheckConfig) (now : Nat) :
    List Node → Nat → Int → Option (Nat × Int) → Option Nat → PassOut
  | [], _, tw, best, first => { nodes := [], tw := tw, best := best, first := first }
  | n :: rest, i, tw, best, first =>
    match config with
    | some cfg =>
      let first' := if first = none then some n.token else first
      if cfg.max_fails ≤ n.fails then
        if now < n.checked then
          let out := passLoopW config now rest (i + 1) tw best first'
          { out with nodes := n :: out.nodes }
        else
          let out := passLoopW config now rest (i + 1) (i16wrap (tw + n.ew))
            (updBest best i (i16wrap (n.cw + n.ew))) first'
          { out with nodes := { n with checked := 0, cw := i16wrap (n.cw + n.ew) } :: out.nodes }
      else
        let out := passLoopW config now rest (i + 1) (i16wrap (tw + n.ew))
          (updBest best i (i16wrap (n.cw + n.ew))) first'
        { out with nodes := { n with cw := i16wrap (n.cw + n.ew) } :: out.nodes }
    | none =>
      let out := passLoopW config now rest (i + 1) (i16wrap (tw + n.ew))
        (updBest best i (i16wrap (n.cw + n.ew))) first
      { out with nodes := { n with cw := i16wrap (n.cw + n.ew) } :: out.nodes }

/-- Post-selection winner update (lines 117-125) with the wrapping `i16`
subtraction `x.cw -= tw`. -/
def winnerUpdW (n : Node) (tw : Int) : Node :=
  { n with cw := i16wrap (n.cw - tw), ew := if n.ew < n.weight then n.ew + 1 else n.ew }

/-- Selection (`fn next`) under the source's wrapping `i16` semantics — the
release-build behaviour of lines 72-127. -/
def RoundRobin.nextW (s : RoundRobin) (now : Nat) : Option Nat × RoundRobin :=
  if s.total ≤ 1 then (some 0, s)
  else
    let out := passLoopW s.config now s.nodes 0 0 none none
    match out.best with
    | none => ((if s.config.isSome then out.first else none), { s with nodes := out.nodes })
    | some b =>
      match out.nodes[b.1]? with
      | none => (none, { s with nodes := out.nodes })
      | some n =>
        (some n.token, { s with nodes := out.nodes.set b.1 (winnerUpdW n out.tw) })

/-- Iterated wrapped selection: state after `k` calls to `nextW`. -/
def RoundRobin.nextNW (s : RoundRobin) (now : Nat) : Nat → RoundRobin
  | 0 => s
  | k + 1 => ((s.nextW now).2).nextNW now k

/-- Weight list of the C9 analysis: 128 nodes of weight 255 and one of weight
127 — all weights valid `u8`, 129 ≤ 255 nodes, total exactly 32767. -/
def w9 : List Nat := List.replicate 128 255 ++ [127]

/-- State of the `w9` balancer after 64 selection passes of the wrapping model. -/
def s9w64 : RoundRobin :=
  RoundRobin.mk [
    Node.mk (-16447 : Int) 255 255 0 0 0,
    Node.mk (-16447 : Int) 255 255 1 0 0,
    Node.mk (-16447 : Int) 255 255 2 0 0,
    Node.mk (-16447 : Int) 255 255 3 0 0,
    Node.mk (-16447 : Int) 255 255 4 0 0,
    Node.mk (-16447 : Int) 255 255 5 0 0,
    Node.mk (-16447 : Int) 255 255 6 0 0,
    Node.mk (-16447 : Int) 255 255 7 0 0,
    Node.mk (-16447 : Int) 255 255 8 0 0,
    Node.mk (-16447 : Int) 255 255 9 0 0,
    Node.mk (-16447 : Int) 255 255 10 0 0,
    Node.mk (-16447 : Int) 255 255 11 0 0,
    Node.mk (-16447 : Int) 255 255 12 0 0,
    Node.mk (-16447 : Int) 255 255 13 0 0,
    Node.mk (-16447 : Int) 255 255 14 0 0,
    Node.mk (-16447 : Int) 255 255 15 0 0,
    Node.mk (-16447 : Int) 255 255 16 0 0,
    Node.mk (-16447 : Int) 255 255 17 0 0,
    Node.mk (-16447 : Int) 255 255 18 0 0,
    Node.mk (-16447 : Int) 255 255 19 0 0,
    Node.mk (-16447 : Int) 255 255 20 0 0,
    Node.mk (-16447 : Int) 255 255 21 0 0,
    Node.mk (-16447 : Int) 255 255 22 0 0,
    Node.mk (-16447 : Int) 255 255 23 0 0,
    Node.mk (-16447 : Int) 255 255 24 0 0,
    Node.mk (-16447 : Int) 255 255 25 0 0,
    Node.mk (-16447 : Int) 255 255 26 0 0,
    Node.mk (-16447 : Int) 255 255 27 0 0,
    Node.mk (-16447 : Int) 255 255 28 0 0,
    Node.mk (-16447 : Int) 255 255 29 0 0,
    Node.mk (-16447 : Int) 255 255 30 0 0,
    Node.mk (-16447 : Int) 255 255 31 0 0,
    Node.mk (-16447 : Int) 255 255 32 0 0,
    Node.mk (-16447 : Int) 255 255 33 0 0,
    Node.mk (-16447 : Int) 255 255 34 0 0,
    Node.mk (-16447 : Int) 255 255 35 0 0,
    Node.mk (-16447 : Int) 255 255 36 0 0,
    Node.mk (-16447 : Int) 255 255 37 0 0,
    Node.mk (-16447 : Int) 255 255 38 0 0,
    Node.mk (-16447 : Int) 255 255 39 0 0,
    Node.mk (-16447 : Int) 255 255 40 0 0,
    Node.mk (-16447 : Int) 255 255 41 0 0,
    Node.mk (-16447 : Int) 255 255 42 0 0,
    Node.mk (-16447 : Int) 255 255 43 0 0,
    Node.mk (-16447 : Int) 255 255 44 0 0,
    Node.mk (-16447 : Int) 255 255 45 0 0,
    Node.mk (-16447 : Int) 255 255 46 0 0,
    Node.mk (-16447 : Int) 255 255 47 0 0,
    Node.mk (-16447 : Int) 255 255 48 0 0,
    Node.mk (-16447 : Int) 255 255 49 0 0,
    Node.mk (-16447 : Int) 255 255 50 0 0,
    Node.mk (-16447 : Int) 255 255 51 0 0,
    Node.mk (-16447 : Int) 255 255 52 0 0,
    Node.mk (-16447 : Int) 255 255 53 0 0,
    Node.mk (-16447 : Int) 255 255 54 0 0,
    Node.mk (-16447 : Int) 255 255 55 0 0,
    Node.mk (-16447 : Int) 255 255 56 0 0,
    Node.mk (-16447 : Int) 255 255 57 0 0,
    Node.mk (-16447 : Int) 255 255 58 0 0,
    Node.mk (-16447 : Int) 255 255 59 0 0,
    Node.mk (-16447 : Int) 255 255 60 0 0,
    Node.mk (-16447 : Int) 255 255 61 0 0,
    Node.mk (-16447 : Int) 255 255 62 0 0,
    Node.mk (-16447 : Int) 255 255 63 0 0,
    Node.mk 16320 255 255 64 0 0,
    Node.mk 16320 255 255 65 0 0,
    Node.mk 16320 255 255 66 0 0,
    Node.mk 16320 255 255 67 0 0,
    Node.mk 16320 255 255 68 0 0,
    Node.mk 16320 255 255 69 0 0,
    Node.mk 16320 255 255 70 0 0,
    Node.mk 16320 255 255 71 0 0,
    Node.mk 16320 255 255 72 0 0,
    Node.mk 16320 255 255 73 0 0,
    Node.mk 16320 255 255 74 0 0,
    Node.mk 16320 255 255 75 0 0,
    Node.mk 16320 255 255 76 0 0,
    Node.mk 16320 255 255 77 0 0,
    Node.mk 16320 255 255 78 0 0,
    Node.mk 16320 255 255 79 0 0,
    Node.mk 16320 255 255 80 0 0,
    Node.mk 16320 255 255 81 0 0,
    Node.mk 16320 255 255 82 0 0,
    Node.mk 16320 255 255 83 0 0,
    Node.mk 16320 255 255 84 0 0,
    Node.mk 16320 255 255 85 0 0,
    Node.mk 16320 255 255 86 0 0,
    Node.mk 16320 255 255 87 0 0,
    Node.mk 16320 255 255 88 0 0,
    Node.mk 16320 255 255 89 0 0,
    Node.mk 16320 255 255 90 0 0,
    Node.mk 16320 255 255 91 0 0,
    Node.mk 16320 255 255 92 0 0,
    Node.mk 16320 255 255 93 0 0,
    Node.mk 16320 255 255 94 0 0,
    Node.mk 16320 255 255 95 0 0,
    Node.mk 16320 255 255 96 0 0,
    Node.mk 16320 255 255 97 0 0,
    Node.mk 16320 255 255 98 0 0,
    Node.mk 16320 255 255 99 0 0,
    Node.mk 16320 255 255 100 0 0,
    Node.mk 16320 255 255 101 0 0,
    Node.mk 16320 255 255 102 0 0,
    Node.mk 16320 255 255 103 0 0,
    Node.mk 16320 255 255 104 0 0,
    Node.mk 16320 255 255 105 0 0,
    Node.mk 16320 255 255 106 0 0,
    Node.mk 16320 255 255 107 0 0,
    Node.mk 16320 255 255 108 0 0,
    Node.mk 16320 255 255 109 0 0,
    Node.mk 16320 255 255 110 0 0,
    Node.mk 16320 255 255 111 0 0,
    Node.mk 16320 255 255 112 0 0,
    Node.mk 16320 255 255 113 0 0,
    Node.mk 16320 255 255 114 0 0,
    Node.mk 16320 255 255 115 0 0,
    Node.mk 16320 255 255 116 0 0,
    Node.mk 16320 255 255 117 0 0,
    Node.mk 16320 255 255 118 0 0,
    Node.mk 16320 255 255 119 0 0,
    Node.mk 16320 255 255 120 0 0,
    Node.mk 16320 255 255 121 0 0,
    Node.mk 16320 255 255 122 0 0,
    Node.mk 16320 255 255 123 0 0,
    Node.mk 16320 255 255 124 0 0,
    Node.mk 16320 255 255 125 0 0,
    Node.mk 16320 255 255 126 0 0,
    Node.mk 16320 255 255 127 0 0,
    Node.mk 8128 127 127 128 0 0
  ] 129 none

/-- State of the `w9` balancer after 128 selection passes of the wrapping model. -/
def s9w128 : RoundRobin :=
  RoundRobin.mk [
    Node.mk (-127 : Int) 255 255 0 0 0,
    Node.mk (-127 : Int) 255 255 1 0 0,
    Node.mk (-127 : Int) 255 255 2 0 0,
    Node.mk (-127 : Int) 255 255 3 0 0,
    Node.mk (-127 : Int) 255 255 4 0 0,
    Node.mk (-127 : Int) 255 255 5 0 0,
    Node.mk (-127 : Int) 255 255 6 0 0,
    Node.mk (-127 : Int) 255 255 7 0 0,
    Node.mk (-127 : Int) 255 255 8 0 0,
    Node.mk (-127 : Int) 255 255 9 0 0,
    Node.mk (-127 : Int) 255 255 10 0 0,
    Node.mk (-127 : Int) 255 255 11 0 0,
    Node.mk (-127 : Int) 255 255 12 0 0,
    Node.mk (-127 : Int) 255 255 13 0 0,
    Node.mk (-127 : Int) 255 255 14 0 0,
    Node.mk (-127 : Int) 255 255 15 0 0,
    Node.mk (-127 : Int) 255 255 16 0 0,
    Node.mk (-127 : Int) 255 255 17 0 0,
    Node.mk (-127 : Int) 255 255 18 0 0,
    Node.mk (-127 : Int) 255 255 19 0 0,
    Node.mk (-127 : Int) 255 255 20 0 0,
    Node.mk (-127 : Int) 255 255 21 0 0,
    Node.mk (-127 : Int) 255 255 22 0 0,
    Node.mk (-127 : Int) 255 255 23 0 0,
    Node.mk (-127 : Int) 255 255 24 0 0,
    Node.mk (-127 : Int) 255 255 25 0 0,
    Node.mk (-127 : Int) 255 255 26 0 0,
    Node.mk (-127 : Int) 255 255 27 0 0,
    Node.mk (-127 : Int) 255 255 28 0 0,
    Node.mk (-127 : Int) 255 255 29 0 0,
    Node.mk (-127 : Int) 255 255 30 0 0,
    Node.mk (-127 : Int) 255 255 31 0 0,
    Node.mk (-127 : Int) 255 255 32 0 0,
    Node.mk (-127 : Int) 255 255 33 0 0,
    Node.mk (-127 : Int) 255 255 34 0 0,
    Node.mk (-127 : Int) 255 255 35 0 0,
    Node.mk (-127 : Int) 255 255 36 0 0,
    Node.mk (-127 : Int) 255 255 37 0 0,
    Node.mk (-127 : Int) 255 255 38 0 0,
    Node.mk (-127 : Int) 255 255 39 0 0,
    Node.mk (-127 : Int) 255 255 40 0 0,
    Node.mk (-127 : Int) 255 255 41 0 0,
    Node.mk (-127 : Int) 255 255 42 0 0,
    Node.mk (-127 : Int) 255 255 43 0 0,
    Node.mk (-127 : Int) 255 255 44 0 0,
    Node.mk (-127 : Int) 255 255 45 0 0,
    Node.mk (-127 : Int) 255 255 46 0 0,
    Node.mk (-127 : Int) 255 255 47 0 0,
    Node.mk (-127 : Int) 255 255 48 0 0,
    Node.mk (-127 : Int) 255 255 49 0 0,
    Node.mk (-127 : Int) 255 255 50 0 0,
    Node.mk (-127 : Int) 255 255 51 0 0,
    Node.mk (-127 : Int) 255 255 52 0 0,
    Node.mk (-127 : Int) 255 255 53 0 0,
    Node.mk (-127 : Int) 255 255 54 0 0,
    Node.mk (-127 : Int) 255 255 55 0 0,
    Node.mk (-127 : Int) 255 255 56 0 0,
    Node.mk (-127 : Int) 255 255 57 0 0,
    Node.mk (-127 : Int) 255 255 58 0 0,
    Node.mk (-127 : Int) 255 255 59 0 0,
    Node.mk (-127 : Int) 255 255 60 0 0,
    Node.mk (-127 : Int) 255 255 61 0 0,
    Node.mk (-127 : Int) 255 255 62 0 0,
    Node.mk (-127 : Int) 255 255 63 0 0,
    Node.mk (-127 : Int) 255 255 64 0 0,
    Node.mk (-127 : Int) 255 255 65 0 0,
    Node.mk (-127 : Int) 255 255 66 0 0,
    Node.mk (-127 : Int) 255 255 67 0 0,
    Node.mk (-127 : Int) 255 255 68 0 0,
    Node.mk (-127 : Int) 255 255 69 0 0,
    Node.mk (-127 : Int) 255 255 70 0 0,
    Node.mk (-127 : Int) 255 255 71 0 0,
    Node.mk (-127 : Int) 255 255 72 0 0,
    Node.mk (-127 : Int) 255 255 73 0 0,
    Node.mk (-127 : Int) 255 255 74 0 0,
    Node.mk (-127 : Int) 255 255 75 0 0,
    Node.mk (-127 : Int) 255 255 76 0 0,
    Node.mk (-127 : Int) 255 255 77 0 0,
    Node.mk (-127 : Int) 255 255 78 0 0,
    Node.mk (-127 : Int) 255 255 79 0 0,
    Node.mk (-127 : Int) 255 255 80 0 0,
    Node.mk (-127 : Int) 255 255 81 0 0,
    Node.mk (-127 : Int) 255 255 82 0 0,
    Node.mk (-127 : Int) 255 255 83 0 0,
    Node.mk (-127 : Int) 255 255 84 0 0,
    Node.mk (-127 : Int) 255 255 85 0 0,
    Node.mk (-127 : Int) 255 255 86 0 0,
    Node.mk (-127 : Int) 255 255 87 0 0,
    Node.mk (-127 : Int) 255 255 88 0 0,
    Node.mk (-127 : Int) 255 255 89 0 0,
    Node.mk (-127 : Int) 255 255 90 0 0,
    Node.mk (-127 : Int) 255 255 91 0 0,
    Node.mk (-127 : Int) 255 255 92 0 0,
    Node.mk (-127 : Int) 255 255 93 0 0,
    Node.mk (-127 : Int) 255 255 94 0 0,
    Node.mk (-127 : Int) 255 255 95 0 0,
    Node.mk (-127 : Int) 255 255 96 0 0,
    Node.mk (-127 : Int) 255 255 97 0 0,
    Node.mk (-127 : Int) 255 255 98 0 0,
    Node.mk (-127 : Int) 255 255 99 0 0,
    Node.mk (-127 : Int) 255 255 100 0 0,
    Node.mk (-127 : Int) 255 255 101 0 0,
    Node.mk (-127 : Int) 255 255 102 0 0,
    Node.mk (-127 : Int) 255 255 103 0 0,
    Node.mk (-127 : Int) 255 255 104 0 0,
    Node.mk (-127 : Int) 255 255 105 0 0,
    Node.mk (-127 : Int) 255 255 106 0 0,
    Node.mk (-127 : Int) 255 255 107 0 0,
    Node.mk (-127 : Int) 255 255 108 0 0,
    Node.mk (-127 : Int) 255 255 109 0 0,
    Node.mk (-127 : Int) 255 255 110 0 0,
    Node.mk (-127 : Int) 255 255 111 0 0,
    Node.mk (-127 : Int) 255 255 112 0 0,
    Node.mk (-127 : Int) 255 255 113 0 0,
    Node.mk (-127 : Int) 255 255 114 0 0,
    Node.mk (-127 : Int) 255 255 115 0 0,
    Node.mk (-127 : Int) 255 255 116 0 0,
    Node.mk (-127 : Int) 255 255 117 0 0,
    Node.mk (-127 : Int) 255 255 118 0 0,
    Node.mk (-127 : Int) 255 255 119 0 0,
    Node.mk (-127 : Int) 255 255 120 0 0,
    Node.mk (-127 : Int) 255 255 121 0 0,
    Node.mk (-127 : Int) 255 255 122 0 0,
    Node.mk (-127 : Int) 255 255 123 0 0,
    Node.mk (-127 : Int) 255 255 124 0 0,
    Node.mk (-127 : Int) 255 255 125 0 0,
    Node.mk (-127 : Int) 255 255 126 0 0,
    Node.mk (-127 : Int) 255 255 127 0 0,
    Node.mk 16256 127 127 128 0 0
  ] 129 none

/-- State of the `w9` balancer after 192 selection passes of the wrapping model. -/
def s9w192 : RoundRobin :=
  RoundRobin.mk [
    Node.mk (-16574 : Int) 255 255 0 0 0,
    Node.mk (-16574 : Int) 255 255 1 0 0,
    Node.mk (-16574 : Int) 255 255 2 0 0,
    Node.mk (-16574 : Int) 255 255 3 0 0,
    Node.mk (-16574 : Int) 255 255 4 0 0,
    Node.mk (-16574 : Int) 255 255 5 0 0,
    Node.mk (-16574 : Int) 255 255 6 0 0,
    Node.mk (-16574 : Int) 255 255 7 0 0,
    Node.mk (-16574 : Int) 255 255 8 0 0,
    Node.mk (-16574 : Int) 255 255 9 0 0,
    Node.mk (-16574 : Int) 255 255 10 0 0,
    Node.mk (-16574 : Int) 255 255 11 0 0,
    Node.mk (-16574 : Int) 255 255 12 0 0,
    Node.mk (-16574 : Int) 255 255 13 0 0,
    Node.mk (-16574 : Int) 255 255 14 0 0,
    Node.mk (-16574 : Int) 255 255 15 0 0,
    Node.mk (-16574 : Int) 255 255 16 0 0,
    Node.mk (-16574 : Int) 255 255 17 0 0,
    Node.mk (-16574 : Int) 255 255 18 0 0,
    Node.mk (-16574 : Int) 255 255 19 0 0,
    Node.mk (-16574 : Int) 255 255 20 0 0,
    Node.mk (-16574 : Int) 255 255 21 0 0,
    Node.mk (-16574 : Int) 255 255 22 0 0,
    Node.mk (-16574 : Int) 255 255 23 0 0,
    Node.mk (-16574 : Int) 255 255 24 0 0,
    Node.mk (-16574 : Int) 255 255 25 0 0,
    Node.mk (-16574 : Int) 255 255 26 0 0,
    Node.mk (-16574 : Int) 255 255 27 0 0,
    Node.mk (-16574 : Int) 255 255 28 0 0,
    Node.mk (-16574 : Int) 255 255 29 0 0,
    Node.mk (-16574 : Int) 255 255 30 0 0,
    Node.mk (-16574 : Int) 255 255 31 0 0,
    Node.mk (-16574 : Int) 255 255 32 0 0,
    Node.mk (-16574 : Int) 255 255 33 0 0,
    Node.mk (-16574 : Int) 255 255 34 0 0,
    Node.mk (-16574 : Int) 255 255 35 0 0,
    Node.mk (-16574 : Int) 255 255 36 0 0,
    Node.mk (-16574 : Int) 255 255 37 0 0,
    Node.mk (-16574 : Int) 255 255 38 0 0,
    Node.mk (-16574 : Int) 255 255 39 0 0,
    Node.mk (-16574 : Int) 255 255 40 0 0,
    Node.mk (-16574 : Int) 255 255 41 0 0,
    Node.mk (-16574 : Int) 255 255 42 0 0,
    Node.mk (-16574 : Int) 255 255 43 0 0,
    Node.mk (-16574 : Int) 255 255 44 0 0,
    Node.mk (-16574 : Int) 255 255 45 0 0,
    Node.mk (-16574 : Int) 255 255 46 0 0,
    Node.mk (-16574 : Int) 255 255 47 0 0,
    Node.mk (-16574 : Int) 255 255 48 0 0,
    Node.mk (-16574 : Int) 255 255 49 0 0,
    Node.mk (-16574 : Int) 255 255 50 0 0,
    Node.mk (-16574 : Int) 255 255 51 0 0,
    Node.mk (-16574 : Int) 255 255 52 0 0,
    Node.mk (-16574 : Int) 255 255 53 0 0,
    Node.mk (-16574 : Int) 255 255 54 0 0,
    Node.mk (-16574 : Int) 255 255 55 0 0,
    Node.mk (-16574 : Int) 255 255 56 0 0,
    Node.mk (-16574 : Int) 255 255 57 0 0,
    Node.mk (-16574 : Int) 255 255 58 0 0,
    Node.mk (-16574 : Int) 255 255 59 0 0,
    Node.mk (-16574 : Int) 255 255 60 0 0,
    Node.mk (-16574 : Int) 255 255 61 0 0,
    Node.mk (-16574 : Int) 255 255 62 0 0,
    Node.mk 16193 255 255 63 0 0,
    Node.mk 16193 255 255 64 0 0,
    Node.mk 16193 255 255 65 0 0,
    Node.mk 16193 255 255 66 0 0,
    Node.mk 16193 255 255 67 0 0,
    Node.mk 16193 255 255 68 0 0,
    Node.mk 16193 255 255 69 0 0,
    Node.mk 16193 255 255 70 0 0,
    Node.mk 16193 255 255 71 0 0,
    Node.mk 16193 255 255 72 0 0,
    Node.mk 16193 255 255 73 0 0,
    Node.mk 16193 255 255 74 0 0,
    Node.mk 16193 255 255 75 0 0,
    Node.mk 16193 255 255 76 0 0,
    Node.mk 16193 255 255 77 0 0,
    Node.mk 16193 255 255 78 0 0,
    Node.mk 16193 255 255 79 0 0,
    Node.mk 16193 255 255 80 0 0,
    Node.mk 16193 255 255 81 0 0,
    Node.mk 16193 255 255 82 0 0,
    Node.mk 16193 255 255 83 0 0,
    Node.mk 16193 255 255 84 0 0,
    Node.mk 16193 255 255 85 0 0,
    Node.mk 16193 255 255 86 0 0,
    Node.mk 16193 255 255 87 0 0,
    Node.mk 16193 255 255 88 0 0,
    Node.mk 16193 255 255 89 0 0,
    Node.mk 16193 255 255 90 0 0,
    Node.mk 16193 255 255 91 0 0,
    Node.mk 16193 255 255 92 0 0,
    Node.mk 16193 255 255 93 0 0,
    Node.mk 16193 255 255 94 0 0,
    Node.mk 16193 255 255 95 0 0,
    Node.mk 16193 255 255 96 0 0,
    Node.mk 16193 255 255 97 0 0,
    Node.mk 16193 255 255 98 0 0,
    Node.mk 16193 255 255 99 0 0,
    Node.mk 16193 255 255 100 0 0,
    Node.mk 16193 255 255 101 0 0,
    Node.mk 16193 255 255 102 0 0,
    Node.mk 16193 255 255 103 0 0,
    Node.mk 16193 255 255 104 0 0,
    Node.mk 16193 255 255 105 0 0,
    Node.mk 16193 255 255 106 0 0,
    Node.mk 16193 255 255 107 0 0,
    Node.mk 16193 255 255 108 0 0,
    Node.mk 16193 255 255 109 0 0,
    Node.mk 16193 255 255 110 0 0,
    Node.mk 16193 255 255 111 0 0,
    Node.mk 16193 255 255 112 0 0,
    Node.mk 16193 255 255 113 0 0,
    Node.mk 16193 255 255 114 0 0,
    Node.mk 16193 255 255 115 0 0,
    Node.mk 16193 255 255 116 0 0,
    Node.mk 16193 255 255 117 0 0,
    Node.mk 16193 255 255 118 0 0,
    Node.mk 16193 255 255 119 0 0,
    Node.mk 16193 255 255 120 0 0,
    Node.mk 16193 255 255 121 0 0,
    Node.mk 16193 255 255 122 0 0,
    Node.mk 16193 255 255 123 0 0,
    Node.mk 16193 255 255 124 0 0,
    Node.mk 16193 255 255 125 0 0,
    Node.mk 16193 255 255 126 0 0,
    Node.mk 16193 255 255 127 0 0,
    Node.mk (-8383 : Int) 127 127 128 0 0
  ] 129 none

/-- One observable transition of the balancer: any single call to `next`,
`on_success` or `on_failure`, at any time. -/
inductive Step : RoundRobin → RoundRobin → Prop
  | next (s : RoundRobin) (now : Nat) : Step s (s.next now).2
  | success (s : RoundRobin) (t : Nat) : Step s (s.on_success t)
  | failure (s : RoundRobin) (t now : Nat) : Step s (s.on_failure t now)

/-- States reachable from a given initial balancer by any call sequence. -/
inductive Reachable (s0 : RoundRobin) : RoundRobin → Prop
  | refl : Reachable s0 s0
  | tail {s s' : RoundRobin} : Reachable s0 s → Step s s' → Reachable s0 s'

/-- Weight sanity invariant carried by every balancer built from weights in
`[1, 255]`: each node keeps its nominal weight in range and its effective
weight below the nominal one. -/
def WeightInv (s : RoundRobin) : Prop :=
  ∀ n ∈ s.nodes, 1 ≤ n.weight ∧ n.weight ≤ 255 ∧ n.ew ≤ n.weight

/-! ### Basic facts about the selection pass -/

theorem passNode_token (config : Option HealthCheckConfig) (now : Nat) (n : Node) :
    (passNode config now n).token = n.token := by
  unfold passNode
  cases config with
  | none => rfl
  | some cfg =>
    by_cases h1 : cfg.max_fails ≤ n.fails <;> by_cases h2 : now < n.checked <;>
      simp [h1, h2]

theorem passNode_ew (config : Option HealthCheckConfig) (now : Nat) (n : Node) :
    (passNode config now n).ew = n.ew := by
  unfold passNode
  cases config with
  | none => rfl
  | some cfg =>
    by_cases h1 : cfg.max_fails ≤ n.fails <;> by_cases h2 : now < n.checked <;>
      simp [h1, h2]

theorem passNode_weight (config : Option HealthCheckConfig) (now : Nat) (n : Node) :
    (passNode config now n).weight = n.weight := by
  unfold passNode
  cases config with
  | none => rfl
  | some cfg =>
    by_cases h1 : cfg.max_fails ≤ n.fails <;> by_cases h2 : now < n.checked <;>
      simp [h1, h2]

theorem passNode_fails (config : Option HealthCheckConfig) (now : Nat) (n : Node) :
    (passNode config now n).fails = n.fails := by
  unfold passNode
  cases config with
  | none => rfl
  | some cfg =>
    by_cases h1 : cfg.max_fails ≤ n.fails <;> by_cases h2 : now < n.checked <;>
      simp [h1, h2]

theorem passNode_of_skip (config : Option HealthCheckConfig) (now : Nat) (n : Node)
    (h : passSkip config now n = true) : passNode config now n = n := by
  unfold passSkip at h
  unfold passNode
  cases config with
  | none => simp at h
  | some cfg =>
    simp only [Bool.and_eq_true, decide_eq_true_eq] at h
    simp [h.1, h.2]

theorem passEw_nonneg (config : Option HealthCheckConfig) (now : Nat) (n : Node) :
    0 ≤ passEw config now n := by
  unfold passEw
  by_cases h : passSkip config now n <;> simp [h]

theorem passEw_le (config : Option HealthCheckConfig) (now : Nat) (n : Node) :
    passEw config now n ≤ (n.ew : Int) := by
  unfold passEw
  by_cases h : passSkip config now n <;> simp [h]

theorem updBest_none_eq (i : Nat) (c : Int) : updBest none i c = some (i, c) := rfl

theorem updBest_some_eq (b : Nat × Int) (i : Nat) (c : Int) :
    updBest (some b) i c = if b.2 < c then some (i, c) else some b := rfl

theorem updBest_ne_none (best : Option (Nat × Int)) (i : Nat) (c : Int) :
    updBest best i c ≠ none := by
  unfold updBest
  cases best with
  | none => simp
  | some b => by_cases h : b.2 < c <;> simp [h]

theorem passLoop_nodes (config : Option HealthCheckConfig) (now : Nat) (l : List Node) :
    ∀ (i : Nat) (tw : Int) (best : Option (Nat × Int)) (first : Option Nat),
    (passLoop config now l i tw best first).nodes = l.map (passNode config now) := by
  induction l with
  | nil => intro i tw best first; cases config <;> rfl
  | cons n rest ih =>
    intro i tw best first
    cases config with
    | none => simp [passLoop, passNode, ih]
    | some cfg =>
      by_cases h1 : cfg.max_fails ≤ n.fails
      · by_cases h2 : now < n.checked
        · simp [passLoop, passNode, h1, h2, ih]
        · simp [passLoop, passNode, h1, h2, ih]
      · simp [passLoop, passNode, h1, ih]

theorem passLoop_tw (config : Option HealthCheckConfig) (now : Nat) (l : List Node) :
    ∀ (i : Nat) (tw : Int) (best : Option (Nat × Int)) (first : Option Nat),
    (passLoop config now l i tw best first).tw = tw + (l.map (passEw config now)).sum := by
  induction l with
  | nil => intro i tw best first; cases config <;> simp [passLoop]
  | cons n rest ih =>
    intro i tw best first
    cases config with
    | none => simp [passLoop, passEw, passSkip, ih]; ring
    | some cfg =>
      by_cases h1 : cfg.max_fails ≤ n.fails
      · by_cases h2 : now < n.checked
        · simp [passLoop, passEw, passSkip, h1, h2, ih]
        · simp [passLoop, passEw, passSkip, h1, h2, ih]; ring
      · simp [passLoop, passEw, passSkip, h1, ih]; ring

theorem passLoop_first_some (config : Option HealthCheckConfig) (now : Nat) (l : List Node) :
    ∀ (i : Nat) (tw : Int) (best : Option (Nat × Int)) (x : Nat),
    (passLoop config now l i tw best (some x)).first = some x := by
  induction l with
  | nil => intro i tw best x; cases config <;> rfl
  | cons n rest ih =>
    intro i tw best x
    cases config with
    | none => simp [passLoop, ih]
    | some cfg =>
      by_cases h1 : cfg.max_fails ≤ n.fails
      · by_cases h2 : now < n.checked
        · simp [passLoop, h1, h2, ih]
        · simp [passLoop, h1, h2, ih]
      · simp [passLoop, h1, ih]

theorem passLoop_first_head (cfg : HealthCheckConfig) (now : Nat) (n : Node)
    (rest : List Node) (i : Nat) (tw : Int) (best : Option (Nat × Int)) :
    (passLoop (some cfg) now (n :: rest) i tw best none).first = some n.token := by
  by_cases h1 : cfg.max_fails ≤ n.fails
  · by_cases h2 : now < n.checked
    · simp [passLoop, h1, h2, passLoop_first_some]
    · simp [passLoop, h1, h2, passLoop_first_some]
  · simp [passLoop, h1, passLoop_first_some]

theorem passLoop_best_allSkip (config : Option HealthCheckConfig) (now : Nat) (l : List Node) :
    ∀ (i : Nat) (tw : Int) (best : Option (Nat × Int)) (first : Option Nat),
    (∀ n ∈ l, passSkip config now n = true) →
    (passLoop config now l i tw best first).best = best := by
  induction l with
  | nil => intro i tw best first _; cases config <;> rfl
  | cons n rest ih =>
    intro i tw best first hall
    have hn : passSkip config now n = true := hall n (List.mem_cons_self n rest)
    have hrest : ∀ m ∈ rest, passSkip config now m = true :=
      fun m hm => hall m (List.mem_cons_of_mem n hm)
    unfold passSkip at hn
    cases config with
    | none => simp at hn
    | some cfg =>
      simp only [Bool.and_eq_true, decide_eq_true_eq] at hn
      simp [passLoop, hn.1, hn.2, ih _ _ _ _ hrest]

theorem passLoop_best_none (config : Option HealthCheckConfig) (now : Nat) (l : List Node) :
    ∀ (i : Nat) (tw : Int) (best : Option (Nat × Int)) (first : Option Nat),
    (passLoop config now l i tw best first).best = none →
    best = none ∧ ∀ n ∈ l, passSkip config now n = true := by
  induction l with
  | nil =>
    intro i tw best first h
    refine ⟨?_, by simp⟩
    cases config <;> simpa [passLoop] using h
  | cons n rest ih =>
    intro i tw best first h
    have hskip : ∀ (i' : Nat) (tw' : Int) first',
        (passLoop config now rest i' tw' (updBest best i (n.cw + n.ew)) first').best = none →
        False := by
      intro i' tw' first' h'
      exact updBest_ne_none best i (n.cw + n.ew) (ih _ _ _ _ h').1
    cases config with
    | none =>
      simp only [passLoop] at h
      exact absurd h (by intro h'; exact hskip _ _ _ h')
    | some cfg =>
      by_cases h1 : cfg.max_fails ≤ n.fails
      · by_cases h2 : now < n.checked
        · simp only [passLoop, h1, h2, if_true, if_pos] at h
          obtain ⟨hb, hrest⟩ := ih _ _ _ _ h
          refine ⟨hb, ?_⟩
          intro m hm
          rcases List.mem_cons.mp hm with rfl | hm'
          · unfold passSkip; simp [h1, h2]
          · exact hrest m hm'
        · simp only [passLoop, h1, h2, if_pos, if_neg, not_false_iff] at h
          exact absurd h (by intro h'; exact hskip _ _ _ h')
      · simp only [passLoop, h1, if_neg, not_false_iff] at h
        exact absurd h (by intro h'; exact hskip _ _ _ h')

theorem passLoop_best_mem (config : Option HealthCheckConfig) (now : Nat) (l : List Node) :
    ∀ (i : Nat) (tw : Int) (best : Option (Nat × Int)) (first : Option Nat)
      (jc : Nat × Int),
    (passLoop config now l i tw best first).best = some jc →
    best = some jc ∨
      (i ≤ jc.1 ∧ ∃ m, l[jc.1 - i]? = some m ∧ passSkip config now m = false ∧
        jc.2 = m.cw + m.ew) := by
  induction l with
  | nil =>
    intro i tw best first jc h
    left
    cases config <;> simpa [passLoop] using h
  | cons n rest ih =>
    intro i tw best first jc h
    have hlift : ∀ (first' : Option Nat) (tw' : Int),
        (passLoop config now rest (i + 1) tw' (updBest best i (n.cw + n.ew)) first').best
          = some jc →
        passSkip config now n = false →
        best = some jc ∨
          (i ≤ jc.1 ∧ ∃ m, (n :: rest)[jc.1 - i]? = some m ∧
            passSkip config now m = false ∧ jc.2 = m.cw + m.ew) := by
      intro first' tw' h' hnskip
      rcases ih _ _ _ _ _ h' with hb | ⟨hge, m, hm, hmskip, hcw⟩
      · cases hbest : best with
        | none =>
          rw [hbest, updBest_none_eq] at hb
          obtain rfl : (i, n.cw + (n.ew : Int)) = jc := Option.some.inj hb
          right
          exact ⟨le_refl i, n, by simp, hnskip, rfl⟩
        | some b =>
          rw [hbest, updBest_some_eq] at hb
          by_cases hc : b.2 < n.cw + n.ew
          · rw [if_pos hc] at hb
            obtain rfl : (i, n.cw + (n.ew : Int)) = jc := Option.some.inj hb
            right
            exact ⟨le_refl i, n, by simp, hnskip, rfl⟩
          · rw [if_neg hc] at hb
            left; exact hb
      · right
        have hge' : i ≤ jc.1 := le_trans (Nat.le_succ i) hge
        refine ⟨hge', m, ?_, hmskip, hcw⟩
        have : jc.1 - i = (jc.1 - (i + 1)) + 1 := by omega
        rw [this]
        simpa using hm
    cases config with
    | none =>
      simp only [passLoop] at h
      exact hlift _ _ h (by unfold passSkip; rfl)
    | some cfg =>
      by_cases h1 : cfg.max_fails ≤ n.fails
      · by_cases h2 : now < n.checked
        · simp only [passLoop, h1, h2, if_true, if_pos] at h
          rcases ih _ _ _ _ _ h with hb | ⟨hge, m, hm, hmskip, hcw⟩
          · left; exact hb
          · right
            have hge' : i ≤ jc.1 := le_trans (Nat.le_succ i) hge
            refine ⟨hge', m, ?_, hmskip, hcw⟩
            have : jc.1 - i = (jc.1 - (i + 1)) + 1 := by omega
            rw [this]
            simpa using hm
        · simp only [passLoop, h1, h2, if_pos, if_neg, not_false_iff] at h
          exact hlift _ _ h (by unfold passSkip; simp [h1, h2])
      · simp only [passLoop, h1, if_neg, not_false_iff] at h
        exact hlift _ _ h (by unfold passSkip; simp [h1])

/-! ### Helpers: `updateFirst`, `mkNodes`, sums, tokens -/

theorem mem_updateFirst (p : Node → Bool) (f : Node → Node) :
    ∀ (l : List Node) (n : Node), n ∈ updateFirst p f l → n ∈ l ∨ ∃ m ∈ l, n = f m := by
  intro l
  induction l with
  | nil => intro n h; simp [updateFirst] at h
  | cons a rest ih =>
    intro n h
    unfold updateFirst at h
    by_cases hp : p a
    · rw [if_pos hp] at h
      rcases List.mem_cons.mp h with rfl | h'
      · right; exact ⟨a, List.mem_cons_self a rest, rfl⟩
      · left; exact List.mem_cons_of_mem a h'
    · rw [if_neg hp] at h
      rcases List.mem_cons.mp h with rfl | h'
      · left; exact List.mem_cons_self n rest
      · rcases ih n h' with h'' | ⟨m, hm, rfl⟩
        · left; exact List.mem_cons_of_mem a h''
        · right; exact ⟨m, List.mem_cons_of_mem a hm, rfl⟩

theorem updateFirst_eq_set (p : Node → Bool) (f : Node → Node) :
    ∀ (l : List Node) (j : Nat) (nj : Node), l[j]? = some nj → p nj = true →
    (∀ (k : Nat) (nk : Node), l[k]? = some nk → k < j → p nk = false) →
    updateFirst p f l = l.set j (f nj) := by
  intro l
  induction l with
  | nil => intro j nj h _ _; simp at h
  | cons a rest ih =>
    intro j nj hj hp hlt
    cases j with
    | zero =>
      rw [List.getElem?_cons_zero] at hj
      obtain rfl : a = nj := Option.some.inj hj
      unfold updateFirst
      rw [if_pos hp]
      rfl
    | succ j' =>
      have ha : p a = false := hlt 0 a List.getElem?_cons_zero (Nat.succ_pos j')
      unfold updateFirst
      rw [if_neg (by simp [ha])]
      rw [List.getElem?_cons_succ] at hj
      have : updateFirst p f rest = rest.set j' (f nj) :=
        ih j' nj hj hp (fun k nk hk hklt =>
          hlt (k + 1) nk (by simpa using hk) (Nat.succ_lt_succ hklt))
      rw [this]
      rfl

theorem updateFirst_nil (p : Node → Bool) (f : Node → Node) : updateFirst p f [] = [] := rfl

theorem mem_mkNodes : ∀ (ws : List Nat) (i : Nat) (n : Node), n ∈ mkNodes i ws →
    ∃ w ∈ ws, n.ew = w ∧ n.weight = w ∧ n.cw = 0 ∧ n.fails = 0 := by
  intro ws
  induction ws with
  | nil => intro i n h; simp [mkNodes] at h
  | cons w rest ih =>
    intro i n h
    unfold mkNodes at h
    rcases List.mem_cons.mp h with rfl | h'
    · exact ⟨w, List.mem_cons_self w rest, rfl, rfl, rfl, rfl⟩
    · obtain ⟨w', hw', h1, h2, h3, h4⟩ := ih (i + 1) n h'
      exact ⟨w', List.mem_cons_of_mem w hw', h1, h2, h3, h4⟩

theorem token_ne_of_nodup (l : List Node) (hnd : (l.map Node.token).Nodup)
    {i j : Nat} (hi : i < l.length) (hj : j < l.length) (hne : i ≠ j) :
    l[i].token ≠ l[j].token := by
  have hi' : i < (l.map Node.token).length := by simpa using hi
  have hj' : j < (l.map Node.token).length := by simpa using hj
  intro h
  have hmap : (l.map Node.token)[i] = (l.map Node.token)[j] := by simpa using h
  exact hne (hnd.getElem_inj_iff.mp hmap)

/-! ### Scenario lemmas for `next` -/

theorem next_of_total_le_one (s : RoundRobin) (now : Nat) (h : s.total ≤ 1) :
    s.next now = (some 0, s) := by
  simp [RoundRobin.next, h]

theorem next_failopen (s : RoundRobin) (now : Nat) (h2 : ¬s.total ≤ 1)
    (hb : (passLoop s.config now s.nodes 0 0 none none).best = none) :
    s.next now = ((if s.config.isSome then (passLoop s.config now s.nodes 0 0 none none).first
      else none), { s with nodes := (passLoop s.config now s.nodes 0 0 none none).nodes }) := by
  simp only [RoundRobin.next, if_neg h2, hb]

theorem next_winner (s : RoundRobin) (now : Nat) (h2 : ¬s.total ≤ 1) (b : Nat × Int) (n : Node)
    (hb : (passLoop s.config now s.nodes 0 0 none none).best = some b)
    (hn : (passLoop s.config now s.nodes 0 0 none none).nodes[b.1]? = some n) :
    s.next now = (some n.token,
      { s with nodes := (passLoop s.config now s.nodes 0 0 none none).nodes.set b.1
                          (winnerUpd n (passLoop s.config now s.nodes 0 0 none none).tw) }) := by
  simp only [RoundRobin.next, if_neg h2, hb, hn]

theorem next_winner_oob (s : RoundRobin) (now : Nat) (h2 : ¬s.total ≤ 1) (b : Nat × Int)
    (hb : (passLoop s.config now s.nodes 0 0 none none).best = some b)
    (hn : (passLoop s.config now s.nodes 0 0 none none).nodes[b.1]? = none) :
    s.next now = (none, { s with nodes := (passLoop s.config now s.nodes 0 0 none none).nodes }) := by
  simp only [RoundRobin.next, if_neg h2, hb, hn]

/-- Every node of the state after a `next` call is either an untouched input
node, a pass-updated input node, or the pass-updated winner. -/
theorem next_nodes_mem (s : RoundRobin) (now : Nat) :
    ∀ n' ∈ (s.next now).2.nodes, n' ∈ s.nodes ∨
      (∃ m ∈ s.nodes, n' = passNode s.config now m) ∨
      (∃ m ∈ s.nodes, ∃ tw : Int, n' = winnerUpd (passNode s.config now m) tw) := by
  intro n' hmem
  by_cases h1 : s.total ≤ 1
  · rw [next_of_total_le_one s now h1] at hmem
    exact Or.inl hmem
  · rcases hb : (passLoop s.config now s.nodes 0 0 none none).best with _ | b
    · rw [next_failopen s now h1 hb] at hmem
      simp only [passLoop_nodes] at hmem
      obtain ⟨m, hm, rfl⟩ := List.mem_map.mp hmem
      exact Or.inr (Or.inl ⟨m, hm, rfl⟩)
    · rcases hn : (passLoop s.config now s.nodes 0 0 none none).nodes[b.1]? with _ | n
      · rw [next_winner_oob s now h1 b hb hn] at hmem
        simp only [passLoop_nodes] at hmem
        obtain ⟨m, hm, rfl⟩ := List.mem_map.mp hmem
        exact Or.inr (Or.inl ⟨m, hm, rfl⟩)
      · rw [next_winner s now h1 b n hb hn] at hmem
        simp only at hmem
        rcases List.mem_or_eq_of_mem_set hmem with hmem' | rfl
        · simp only [passLoop_nodes] at hmem'
          obtain ⟨m, hm, rfl⟩ := List.mem_map.mp hmem'
          exact Or.inr (Or.inl ⟨m, hm, rfl⟩)
        · have hn' : n ∈ (passLoop s.config now s.nodes 0 0 none none).nodes :=
            List.getElem?_mem hn
          simp only [passLoop_nodes] at hn'
          obtain ⟨m, hm, rfl⟩ := List.mem_map.mp hn'
          exact Or.inr (Or.inr ⟨m, hm, _, rfl⟩)

theorem winnerUpd_ew (n : Node) (tw : Int) :
    (winnerUpd n tw).ew = if n.ew < n.weight then n.ew + 1 else n.ew := rfl

theorem winnerUpd_weight (n : Node) (tw : Int) : (winnerUpd n tw).weight = n.weight := rfl

/-! ### Preservation of the weight invariant (claim C7) -/

theorem WeightInv_new (weights : List Nat) (config : Option HealthCheckConfig)
    (hw : ∀ w ∈ weights, 1 ≤ w ∧ w ≤ 255) :
    WeightInv (RoundRobin.new weights config) := by
  intro n hn
  unfold RoundRobin.new at hn
  by_cases h : weights.length ≤ 1
  · rw [if_pos h] at hn; simp at hn
  · rw [if_neg h] at hn
    simp only at hn
    obtain ⟨w, hw', h1, h2, _, _⟩ := mem_mkNodes weights 0 n hn
    obtain ⟨hge, hle⟩ := hw w hw'
    exact ⟨by omega, by omega, by omega⟩

theorem WeightInv_next (s : RoundRobin) (now : Nat) (h : WeightInv s) :
    WeightInv (s.next now).2 := by
  intro n' hn'
  rcases next_nodes_mem s now n' hn' with hmem | ⟨m, hm, rfl⟩ | ⟨m, hm, tw, rfl⟩
  · exact h n' hmem
  · obtain ⟨h1, h2, h3⟩ := h m hm
    rw [passNode_ew, passNode_weight]
    exact ⟨h1, h2, h3⟩
  · obtain ⟨h1, h2, h3⟩ := h m hm
    rw [winnerUpd_ew, winnerUpd_weight, passNode_ew, passNode_weight]
    refine ⟨h1, h2, ?_⟩
    by_cases hlt : m.ew < m.weight
    · rw [if_pos hlt]; omega
    · rw [if_neg hlt]; exact h3

theorem WeightInv_on_success (s : RoundRobin) (t : Nat) (h : WeightInv s) :
    WeightInv (s.on_success t) := by
  intro n' hn'
  unfold RoundRobin.on_success at hn'
  rcases hc : s.config with _ | cfg
  · rw [hc] at hn'; exact h n' hn'
  · rw [hc] at hn'
    simp only at hn'
    rcases mem_updateFirst _ _ s.nodes n' hn' with hmem | ⟨m, hm, rfl⟩
    · exact h n' hmem
    · exact h m hm

theorem WeightInv_on_failure (s : RoundRobin) (t now : Nat) (h : WeightInv s) :
    WeightInv (s.on_failure t now) := by
  intro n' hn'
  unfold RoundRobin.on_failure at hn'
  rcases hc : s.config with _ | cfg
  · rw [hc] at hn'; exact h n' hn'
  · rw [hc] at hn'
    simp only at hn'
    rcases mem_updateFirst _ _ s.nodes n' hn' with hmem | ⟨m, hm, rfl⟩
    · exact h n' hmem
    · obtain ⟨h1, h2, h3⟩ := h m hm
      unfold failUpd
      by_cases hf : cfg.max_fails ≤ (m.fails + 1) % u32lim
      · simp only [if_pos hf]
        exact ⟨h1, h2, h1⟩
      · simp only [if_neg hf]
        exact ⟨h1, h2, h3⟩

theorem WeightInv_step (s s' : RoundRobin) (hs : Step s s') (h : WeightInv s) :
    WeightInv s' := by
  cases hs with
  | next now => exact WeightInv_next s now h
  | success t => exact WeightInv_on_success s t h
  | failure t now => exact WeightInv_on_failure s t now h

theorem WeightInv_reachable (s0 s : RoundRobin) (h0 : WeightInv s0)
    (hr : Reachable s0 s) : WeightInv s := by
  induction hr with
  | refl => exact h0
  | tail _ hstep ih => exact WeightInv_step _ _ hstep ih

/-- With distinct tokens, no node at an index other than `j` carries the token
of the node at `j`. -/
theorem token_unique (l : List Node) (j : Nat) (nj : Node) (t : Nat)
    (hnd : (l.map Node.token).Nodup) (hj : l[j]? = some nj) (ht : nj.token = t) :
    ∀ (k : Nat) (nk : Node), l[k]? = some nk → k ≠ j → nk.token ≠ t := by
  intro k nk hk hne
  obtain ⟨hjlt, hjv⟩ := List.getElem?_eq_some_iff.mp hj
  obtain ⟨hklt, hkv⟩ := List.getElem?_eq_some_iff.mp hk
  have := token_ne_of_nodup l hnd hklt hjlt hne
  rw [hkv, hjv, ht] at this
  exact this

/-- Effect of `on_failure` when the target token sits at index `j` and no
earlier node carries it: exactly that node goes through `failUpd`. -/
theorem on_failure_at (s : RoundRobin) (cfg : HealthCheckConfig) (t now j : Nat) (nj : Node)
    (hcfg : s.config = some cfg) (hj : s.nodes[j]? = some nj) (ht : nj.token = t)
    (hlt : ∀ (k : Nat) (nk : Node), s.nodes[k]? = some nk → k < j → nk.token ≠ t) :
    s.on_failure t now = { s with nodes := s.nodes.set j (failUpd cfg now nj) } := by
  simp only [RoundRobin.on_failure, hcfg]
  rw [updateFirst_eq_set (fun n => n.token == t) (failUpd cfg now) s.nodes j nj hj
    (by simp [ht]) (fun k nk hk hklt => by simp [hlt k nk hk hklt])]

/-- Effect of `on_success` when the target token sits at index `j` and no
earlier node carries it: exactly that node's `fails` is reset to 0. -/
theorem on_success_at (s : RoundRobin) (cfg : HealthCheckConfig) (t j : Nat) (nj : Node)
    (hcfg : s.config = some cfg) (hj : s.nodes[j]? = some nj) (ht : nj.token = t)
    (hlt : ∀ (k : Nat) (nk : Node), s.nodes[k]? = some nk → k < j → nk.token ≠ t) :
    s.on_success t = { s with nodes := s.nodes.set j { nj with fails := 0 } } := by
  simp only [RoundRobin.on_success, hcfg]
  rw [updateFirst_eq_set (fun n => n.token == t) (fun n => { n with fails := 0 }) s.nodes j nj hj
    (by simp [ht]) (fun k nk hk hklt => by simp [hlt k nk hk hklt])]

/-! ### Claim theorems -/

/-- Claim C1: the specification states that `next()` returns `None` when zero
nodes are configured (`None` only in that case), and that a balancer built from
an empty weight list returns `None` from every `next()` call.  The code does
not: the `total <= 1` fast path (line 73) returns `Some(Token(0))` even when
`total == 0`, handing out a token that identifies no node.  This theorem
evaluates the code at the failing input: the balancer constructed from the
empty weight list has zero configured nodes, yet every `next` call returns
`some 0`. -/
theorem C1_next_on_empty_weights (now : Nat) :
    (RoundRobin.new [] none).total = 0 ∧
    ((RoundRobin.new [] none).next now).1 = some 0 := by
  constructor
  · rfl
  · rw [next_of_total_le_one _ _ (Nat.zero_le 1)]

/-- Claim C10: a balancer constructed with exactly one weight keeps an empty
internal node registry even with a health configuration present; `next` always
returns token 0 and `on_success`/`on_failure` with any token leave the state
unchanged, so a single-node balancer can never enter cooldown. -/
theorem C10_single_node_registry_empty (w : Nat) (config : Option HealthCheckConfig)
    (t now : Nat) :
    (RoundRobin.new [w] config).nodes = [] ∧
    (RoundRobin.new [w] config).next now = (some 0, RoundRobin.new [w] config) ∧
    (RoundRobin.new [w] config).on_success t = RoundRobin.new [w] config ∧
    (RoundRobin.new [w] config).on_failure t now = RoundRobin.new [w] config := by
  refine ⟨rfl, ?_, ?_, ?_⟩
  · exact next_of_total_le_one _ _ (Nat.le_refl 1)
  · cases config <;> rfl
  · cases config <;> rfl

/-- Claim C3: with health checking enabled and at least one node in the
registry, if every node is skipped by the pass because of an active cooldown
(`fails >= max_fails` and `now < checked`), `next` still returns the token of
the first configured node rather than `none`, regardless of that node's own
health state. -/
theorem C3_failopen_returns_first (s : RoundRobin) (cfg : HealthCheckConfig) (now : Nat)
    (hd : Node) (rest : List Node)
    (hcfg : s.config = some cfg) (h2 : 2 ≤ s.total) (hnodes : s.nodes = hd :: rest)
    (hall : ∀ n ∈ s.nodes, cfg.max_fails ≤ n.fails ∧ now < n.checked) :
    (s.next now).1 = some hd.token := by
  have h1 : ¬s.total ≤ 1 := by omega
  have hskip : ∀ n ∈ s.nodes, passSkip s.config now n = true := by
    intro n hn
    obtain ⟨hf, hc⟩ := hall n hn
    unfold passSkip
    rw [hcfg]
    simp [hf, hc]
  have hb : (passLoop s.config now s.nodes 0 0 none none).best = none :=
    passLoop_best_allSkip s.config now s.nodes 0 0 none none hskip
  rw [next_failopen s now h1 hb]
  simp only [hcfg, Option.isSome_some, if_true]
  rw [hnodes]
  exact passLoop_first_head cfg now hd rest 0 0 none

/-- Claim C3 witness: a two-node balancer with both nodes in active cooldown
at time 5; `next` returns the first node's token. -/
theorem C3_failopen_returns_first_witness :
    (((RoundRobin.mk [Node.mk 0 1 1 0 1 10, Node.mk 0 1 1 1 2 99] 2
        (some (HealthCheckConfig.mk 1 10))).next 5)).1 = some (Node.mk 0 1 1 0 1 10 : Node).token :=
  C3_failopen_returns_first
    (RoundRobin.mk [Node.mk 0 1 1 0 1 10, Node.mk 0 1 1 1 2 99] 2 (some (HealthCheckConfig.mk 1 10)))
    (HealthCheckConfig.mk 1 10) 5 (Node.mk 0 1 1 0 1 10) [Node.mk 0 1 1 1 2 99]
    rfl (by decide) rfl (by decide)

/-- Claim C7: for every balancer constructed from weights in `[1, 255]`,
every node of every reachable state (after construction and after any sequence
of `next`/`on_success`/`on_failure` calls) satisfies
`0 ≤ effective_weight ≤ nominal_weight`. -/
theorem C7_effective_weight_bounded (weights : List Nat) (config : Option HealthCheckConfig)
    (s : RoundRobin) (hw : ∀ w ∈ weights, 1 ≤ w ∧ w ≤ 255)
    (hr : Reachable (RoundRobin.new weights config) s) :
    ∀ n ∈ s.nodes, 0 ≤ n.ew ∧ n.ew ≤ n.weight := by
  intro n hn
  have h := WeightInv_reachable _ s (WeightInv_new weights config hw) hr n hn
  exact ⟨Nat.zero_le _, h.2.2⟩

/-- Claim C7 witness: instantiated on the balancer over weights `[1, 2]` after
one `next` call, at the node the call demoted. -/
theorem C7_effective_weight_bounded_witness :
    0 ≤ (Node.mk (-1) 2 2 1 0 0).ew ∧ (Node.mk (-1) 2 2 1 0 0).ew ≤ (Node.mk (-1) 2 2 1 0 0).weight :=
  C7_effective_weight_bounded [1, 2] none (((RoundRobin.new [1, 2] none).next 0).2)
    (by decide) (Reachable.tail Reachable.refl (Step.next _ 0)) (Node.mk (-1) 2 2 1 0 0)
    (by decide)

/-- Claim C5: with health checking enabled, `on_success(token)` for a token
identifying a configured node (tokens are distinct) resets exactly that node's
`fail_count` to 0 and leaves everything else unchanged: the node's other
fields, every other node, and the balancer's `total` and `config`. -/
theorem C5_on_success_frame (s : RoundRobin) (cfg : HealthCheckConfig) (t j : Nat) (nj : Node)
    (hcfg : s.config = some cfg) (hnd : (s.nodes.map Node.token).Nodup)
    (hj : s.nodes[j]? = some nj) (ht : nj.token = t) :
    s.on_success t = { s with nodes := s.nodes.set j { nj with fails := 0 } } :=
  on_success_at s cfg t j nj hcfg hj ht
    (fun k nk hk hklt => token_unique s.nodes j nj t hnd hj ht k nk hk (Nat.ne_of_lt hklt))

/-- Claim C5 witness: a two-node balancer whose second node has accumulated
failures; `on_success 1` resets only that counter. -/
theorem C5_on_success_frame_witness :
    (RoundRobin.mk [Node.mk 4 1 1 0 5 99, Node.mk 3 2 2 1 7 8] 2 (some (HealthCheckConfig.mk 3 10))).on_success 1
      = RoundRobin.mk [Node.mk 4 1 1 0 5 99, Node.mk 3 2 2 1 0 8] 2 (some (HealthCheckConfig.mk 3 10)) :=
  C5_on_success_frame
    (RoundRobin.mk [Node.mk 4 1 1 0 5 99, Node.mk 3 2 2 1 7 8] 2 (some (HealthCheckConfig.mk 3 10)))
    (HealthCheckConfig.mk 3 10) 1 1 (Node.mk 3 2 2 1 7 8) rfl (by decide) (by decide) rfl

/-- Bounds on the pass contributions: each node adds between 0 and its nominal
weight to the running total, provided `ew ≤ weight`. -/
theorem passEw_sum_bounds (config : Option HealthCheckConfig) (now : Nat) :
    ∀ l : List Node, (∀ n ∈ l, n.ew ≤ n.weight) →
      0 ≤ (l.map (passEw config now)).sum ∧
        (l.map (passEw config now)).sum ≤ ((l.map Node.weight).sum : Int) := by
  intro l
  induction l with
  | nil => intro _; simp
  | cons n rest ih =>
    intro hew
    have h1 := passEw_nonneg config now n
    have h2 := passEw_le config now n
    have h3 : (n.ew : Int) ≤ (n.weight : Int) := by
      exact_mod_cast hew n (List.mem_cons_self n rest)
    obtain ⟨ih1, ih2⟩ := ih (fun m hm => hew m (List.mem_cons_of_mem n hm))
    constructor
    · simpa using add_nonneg h1 ih1
    · simp only [List.map_cons, List.sum_cons, Nat.cast_add]
      exact add_le_add (le_trans h2 h3) ih2

/-- Claim C9 (amended): for a balancer whose nominal weights sum to at most
32767 and whose effective weights are below the nominal ones (which holds in
every reachable state), the running pass total `tw` of `next` stays within the
`i16` range — after any prefix of the iteration it lies in `[0, 32767]`.  The
counterexample shows that the other half of the original claim (the per-node
`current_weight` staying in the `i16` range) is false. -/
theorem C9_amended_pass_total_in_range (s : RoundRobin) (now : Nat)
    (hew : ∀ n ∈ s.nodes, n.ew ≤ n.weight)
    (hsum : (s.nodes.map Node.weight).sum ≤ 32767)
    (l₁ l₂ : List Node) (hsplit : s.nodes = l₁ ++ l₂) :
    0 ≤ (passLoop s.config now l₁ 0 0 none none).tw ∧
      (passLoop s.config now l₁ 0 0 none none).tw ≤ 32767 := by
  have hew₁ : ∀ n ∈ l₁, n.ew ≤ n.weight := by
    intro n hn
    exact hew n (hsplit ▸ List.mem_append_left l₂ hn)
  obtain ⟨hb0, hb1⟩ := passEw_sum_bounds s.config now l₁ hew₁
  rw [passLoop_tw, zero_add]
  refine ⟨hb0, le_trans hb1 ?_⟩
  have hmono : (l₁.map Node.weight).sum ≤ (s.nodes.map Node.weight).sum := by
    rw [hsplit, List.map_append, List.sum_append]
    exact Nat.le_add_right _ _
  have : ((l₁.map Node.weight).sum : Int) ≤ ((s.nodes.map Node.weight).sum : Int) := by
    exact_mod_cast hmono
  refine le_trans this ?_
  exact_mod_cast hsum

/-- Claim C9 witness for the amended statement: the `[1, 2]` balancer, split
after its first node. -/
theorem C9_amended_pass_total_in_range_witness :
    0 ≤ (passLoop (RoundRobin.new [1, 2] none).config 0 [Node.mk 0 1 1 0 0 0] 0 0 none none).tw ∧
      (passLoop (RoundRobin.new [1, 2] none).config 0 [Node.mk 0 1 1 0 0 0] 0 0 none none).tw ≤ 32767 :=
  C9_amended_pass_total_in_range (RoundRobin.new [1, 2] none) 0 (by decide) (by decide)
    [Node.mk 0 1 1 0 0 0] [Node.mk 0 2 2 1 0 0] (by decide)

theorem failN_snoc (t now : Nat) : ∀ (i : Nat) (s : RoundRobin),
    s.failN t now (i + 1) = (s.failN t now i).on_failure t now := by
  intro i
  induction i with
  | zero => intro s; rfl
  | succ i ih =>
    intro s
    show ((s.on_failure t now)).failN t now (i + 1) = _
    rw [ih (s.on_failure t now)]
    rfl

/-- Evaluation of the `on_failure` node update under no-overflow side
conditions: the failure count becomes `f + 1`; reaching `max_fails` stores the
cooldown stamp and collapses the effective weight to 1. -/
theorem failUpd_eval (cfg : HealthCheckConfig) (now : Nat) (n : Node) (f : Nat)
    (hf : n.fails = f) (hflt : f + 1 < u32lim)
    (hckd : now + cfg.fail_timeout_secs < u32lim) :
    failUpd cfg now n = if cfg.max_fails ≤ f + 1
      then { n with fails := f + 1, checked := now + cfg.fail_timeout_secs, ew := 1 }
      else { n with fails := f + 1 } := by
  unfold failUpd
  simp only [hf, Nat.mod_eq_of_lt hflt, Nat.mod_eq_of_lt hckd]

/-- Cumulative effect of `i ≤ max_fails` consecutive `on_failure` calls for the
token at index `j`, starting from a zero failure count: the count rises to `i`,
and the `i = max_fails` call additionally stamps the cooldown and collapses the
effective weight. -/
theorem failN_progress (s : RoundRobin) (cfg : HealthCheckConfig) (t now j : Nat) (nj : Node)
    (hcfg : s.config = some cfg) (hnd : (s.nodes.map Node.token).Nodup)
    (hj : s.nodes[j]? = some nj) (ht : nj.token = t) (hf0 : nj.fails = 0)
    (hklim : cfg.max_fails < u32lim) (hnow : now + cfg.fail_timeout_secs < u32lim) :
    ∀ i, 1 ≤ i → i ≤ cfg.max_fails →
      s.failN t now i = { s with
        nodes := s.nodes.set j
          (if i < cfg.max_fails then { nj with fails := i }
           else { nj with fails := i, checked := now + cfg.fail_timeout_secs, ew := 1 }) } := by
  have hjlt : j < s.nodes.length := (List.getElem?_eq_some_iff.mp hj).1
  have hlt : ∀ (k : Nat) (nk : Node), s.nodes[k]? = some nk → k < j → nk.token ≠ t :=
    fun k nk hk hklt => token_unique s.nodes j nj t hnd hj ht k nk hk (Nat.ne_of_lt hklt)
  intro i
  induction i with
  | zero => intro h; omega
  | succ i ih =>
    intro _ hle
    rcases Nat.eq_zero_or_pos i with rfl | hpos
    · rw [failN_snoc]
      have h0 : s.failN t now 0 = s := rfl
      rw [h0, on_failure_at s cfg t now j nj hcfg hj ht hlt,
        failUpd_eval cfg now nj 0 hf0 (by omega) hnow]
      by_cases hcase : cfg.max_fails ≤ 0 + 1
      · rw [if_pos hcase, if_neg (by omega)]
      · rw [if_neg hcase, if_pos (by omega)]
    · rw [failN_snoc, ih hpos (by omega), if_pos (show i < cfg.max_fails by omega)]
      have hres := on_failure_at { s with nodes := s.nodes.set j { nj with fails := i } }
        cfg t now j { nj with fails := i } hcfg
        (by simpa using List.getElem?_set_self (a := { nj with fails := i }) hjlt)
        ht
        (by
          intro k nk hk hklt
          have hk' : s.nodes[k]? = some nk := by
            rw [← List.getElem?_set_ne (a := { nj with fails := i })
              (Nat.ne_of_lt hklt).symm (l := s.nodes)]
            simpa using hk
          exact hlt k nk hk' hklt)
      rw [hres]
      simp only [List.set_set]
      rw [failUpd_eval cfg now { nj with fails := i } i rfl (by omega) hnow]
      by_cases hcase : cfg.max_fails ≤ i + 1
      · rw [if_pos hcase, if_neg (by omega)]
      · rw [if_neg hcase, if_pos (by omega)]

/-- Computation of `passNode` on a node whose cooldown has expired: the stamp
is cleared and the node participates (`cw += ew`). -/
theorem passNode_clear (cfg : HealthCheckConfig) (now : Nat) (n : Node)
    (h1 : cfg.max_fails ≤ n.fails) (h2 : ¬now < n.checked) :
    passNode (some cfg) now n = { n with checked := 0, cw := n.cw + n.ew } := by
  unfold passNode
  simp [h1, h2]

/-- Claim C2 counterexample: the claim states that after `k = max_fails`
consecutive `on_failure(token)` calls, `next()` never returns that token while
the time is before `cooldown_until`.  With `max_fails = 1` and
`fail_timeout_secs = 10`, failing both nodes of a two-node balancer at time 0
puts both in cooldown until 10; at time `5 < 10` the fail-open path of `next`
nevertheless returns token 0 — the very token whose cooldown is active — so
the unqualified claim is false on the code. -/
theorem C2_counterexample :
    ((((RoundRobin.new [1, 1] (some (HealthCheckConfig.mk 1 10))).on_failure 0 0).on_failure 1 0).nodes.map
        Node.fails = [1, 1]) ∧
    ((((RoundRobin.new [1, 1] (some (HealthCheckConfig.mk 1 10))).on_failure 0 0).on_failure 1 0).nodes.map
        Node.checked = [10, 10]) ∧
    (((((RoundRobin.new [1, 1] (some (HealthCheckConfig.mk 1 10))).on_failure 0 0).on_failure 1 0).next 5).1
        = some 0) := by
  refine ⟨by decide, by decide, by decide⟩

/-- Claim C2 (amended), three parts.  Part 1: starting from a zero failure
count, `k = max_fails ≥ 1` consecutive `on_failure` calls set the node's
failure count to `k`, its `cooldown_until` to `now + fail_timeout_secs` (the
`k`-th call does this) and its effective weight to 1, leaving the other nodes
alone.  Part 2: while `fail_count ≥ max_fails` and `now < cooldown_until`,
`next` does not return that node's token — provided some node is eligible in
the pass; the amendment excludes the fail-open fallback, which the
counterexample shows can return the cooling token when every node is skipped.
Part 3: a pass running at `now ≥ cooldown_until` clears the node's
`cooldown_until` to 0 and the node participates again: afterwards its
`current_weight` has absorbed its effective weight, or it was the selected
winner of that very pass. -/
theorem C2_cooldown_exclusion_amended :
    (∀ (s : RoundRobin) (cfg : HealthCheckConfig) (t now j : Nat) (nj : Node),
      s.config = some cfg → (s.nodes.map Node.token).Nodup →
      s.nodes[j]? = some nj → nj.token = t → nj.fails = 0 →
      1 ≤ cfg.max_fails → cfg.max_fails < u32lim →
      now + cfg.fail_timeout_secs < u32lim →
      s.failN t now cfg.max_fails = { s with
        nodes := s.nodes.set j
          { nj with fails := cfg.max_fails,
                    checked := now + cfg.fail_timeout_secs, ew := 1 } }) ∧
    (∀ (s : RoundRobin) (cfg : HealthCheckConfig) (now j : Nat) (nj : Node),
      s.config = some cfg → 2 ≤ s.total → (s.nodes.map Node.token).Nodup →
      s.nodes[j]? = some nj → cfg.max_fails ≤ nj.fails → now < nj.checked →
      (∃ n ∈ s.nodes, passSkip s.config now n = false) →
      (s.next now).1 ≠ some nj.token) ∧
    (∀ (s : RoundRobin) (cfg : HealthCheckConfig) (now j : Nat) (nj : Node),
      s.config = some cfg → 2 ≤ s.total → s.nodes[j]? = some nj →
      cfg.max_fails ≤ nj.fails → nj.checked ≤ now →
      ∃ m, ((s.next now).2).nodes[j]? = some m ∧ m.checked = 0 ∧
        (m.cw = nj.cw + nj.ew ∨ (s.next now).1 = some nj.token)) := by
  refine ⟨?_, ?_, ?_⟩
  · intro s cfg t now j nj hcfg hnd hj ht hf0 hk1 hklim hnow
    rw [failN_progress s cfg t now j nj hcfg hnd hj ht hf0 hklim hnow cfg.max_fails hk1
      (le_refl _), if_neg (lt_irrefl cfg.max_fails)]
  · intro s cfg now j nj hcfg h2 hnd hj hcool hnow helig
    have h1 : ¬s.total ≤ 1 := by omega
    obtain ⟨ne, hne, hneskip⟩ := helig
    have hnjskip : passSkip s.config now nj = true := by
      unfold passSkip
      rw [hcfg]
      simp [hcool, hnow]
    rcases hb : (passLoop s.config now s.nodes 0 0 none none).best with _ | b
    · obtain ⟨-, hall⟩ := passLoop_best_none s.config now s.nodes 0 0 none none hb
      rw [hall ne hne] at hneskip
      exact absurd hneskip (by simp)
    · rcases passLoop_best_mem s.config now s.nodes 0 0 none none b hb with
        hl | ⟨-, mb, hm, hmbskip, -⟩
      · exact absurd hl (by simp)
      · rw [Nat.sub_zero] at hm
        have hout : (passLoop s.config now s.nodes 0 0 none none).nodes[b.1]?
            = some (passNode s.config now mb) := by
          rw [passLoop_nodes, List.getElem?_map, hm]
          rfl
        rw [next_winner s now h1 b _ hb hout]
        show some (passNode s.config now mb).token ≠ some nj.token
        rw [passNode_token]
        intro hcontra
        have htok : mb.token = nj.token := Option.some.inj hcontra
        by_cases hbj : b.1 = j
        · rw [hbj, hj] at hm
          obtain rfl := Option.some.inj hm
          rw [hnjskip] at hmbskip
          exact Bool.noConfusion hmbskip
        · exact token_unique s.nodes j nj nj.token hnd hj rfl b.1 mb hm hbj htok
  · intro s cfg now j nj hcfg h2 hj hcool hexp
    have h1 : ¬s.total ≤ 1 := by omega
    have hnlt : ¬now < nj.checked := Nat.not_lt.mpr hexp
    have hnjskip : passSkip s.config now nj = false := by
      unfold passSkip
      rw [hcfg]
      simp [hnlt]
    have hjmem : nj ∈ s.nodes := List.getElem?_mem hj
    have hjlt : j < s.nodes.length := (List.getElem?_eq_some_iff.mp hj).1
    rcases hb : (passLoop s.config now s.nodes 0 0 none none).best with _ | b
    · obtain ⟨-, hall⟩ := passLoop_best_none s.config now s.nodes 0 0 none none hb
      rw [hall nj hjmem] at hnjskip
      exact Bool.noConfusion hnjskip
    · rcases passLoop_best_mem s.config now s.nodes 0 0 none none b hb with
        hl | ⟨-, mb, hm, hmbskip, -⟩
      · exact absurd hl (by simp)
      · rw [Nat.sub_zero] at hm
        have hout : (passLoop s.config now s.nodes 0 0 none none).nodes[b.1]?
            = some (passNode s.config now mb) := by
          rw [passLoop_nodes, List.getElem?_map, hm]
          rfl
        have houtlen : j < (passLoop s.config now s.nodes 0 0 none none).nodes.length := by
          rw [passLoop_nodes, List.length_map]
          exact hjlt
        have hclear : passNode s.config now nj = { nj with checked := 0, cw := nj.cw + nj.ew } := by
          rw [hcfg]
          exact passNode_clear cfg now nj hcool hnlt
        rw [next_winner s now h1 b _ hb hout]
        by_cases hbj : b.1 = j
        · subst hbj
          rw [hj] at hm
          obtain rfl := Option.some.inj hm
          refine ⟨winnerUpd (passNode s.config now nj)
            (passLoop s.config now s.nodes 0 0 none none).tw, ?_, ?_, Or.inr ?_⟩
          · simpa using List.getElem?_set_self
              (a := winnerUpd (passNode s.config now nj)
                (passLoop s.config now s.nodes 0 0 none none).tw) houtlen
          · show (passNode s.config now nj).checked = 0
            rw [hclear]
          · show some (passNode s.config now nj).token = some nj.token
            rw [passNode_token]
        · refine ⟨passNode s.config now nj, ?_, ?_, Or.inl ?_⟩
          · have hset : ((passLoop s.config now s.nodes 0 0 none none).nodes.set b.1
                (winnerUpd (passNode s.config now mb)
                  (passLoop s.config now s.nodes 0 0 none none).tw))[j]?
                = (passLoop s.config now s.nodes 0 0 none none).nodes[j]? :=
              List.getElem?_set_ne hbj
            rw [hset, passLoop_nodes, List.getElem?_map, hj]
            rfl
          · rw [hclear]
          · rw [hclear]


/-- Claim C2 witness: all three parts of the amended claim instantiated on
concrete two-node balancers — two consecutive failures with `max_fails = 2`
stamp the cooldown; a cooling node is not selected while an eligible node
exists; an expired cooldown is cleared by the next pass. -/
theorem C2_cooldown_exclusion_amended_witness :
    ((RoundRobin.new [1, 1] (some (HealthCheckConfig.mk 2 10))).failN 0 5 2
      = { RoundRobin.new [1, 1] (some (HealthCheckConfig.mk 2 10)) with
            nodes := (RoundRobin.new [1, 1] (some (HealthCheckConfig.mk 2 10))).nodes.set 0
                       { Node.mk 0 1 1 0 0 0 with fails := 2, checked := 15, ew := 1 } }) ∧
    (((RoundRobin.mk [Node.mk 0 1 1 0 1 10, Node.mk 0 1 1 1 0 0] 2
        (some (HealthCheckConfig.mk 1 10))).next 5).1 ≠ some 0) ∧
    (∃ m, (((RoundRobin.mk [Node.mk 0 1 1 0 1 3, Node.mk 0 1 1 1 0 0] 2
        (some (HealthCheckConfig.mk 1 10))).next 5).2).nodes[0]? = some m ∧
      m.checked = 0 ∧
      (m.cw = (Node.mk 0 1 1 0 1 3 : Node).cw + (Node.mk 0 1 1 0 1 3 : Node).ew ∨
        (((RoundRobin.mk [Node.mk 0 1 1 0 1 3, Node.mk 0 1 1 1 0 0] 2
          (some (HealthCheckConfig.mk 1 10))).next 5).1 = some (Node.mk 0 1 1 0 1 3 : Node).token))) := by
  refine ⟨?_, ?_, ?_⟩
  · exact C2_cooldown_exclusion_amended.1 (RoundRobin.new [1, 1] (some (HealthCheckConfig.mk 2 10)))
      (HealthCheckConfig.mk 2 10) 0 5 0 (Node.mk 0 1 1 0 0 0) rfl (by decide) (by decide) rfl rfl
      (by decide) (by decide) (by decide)
  · exact C2_cooldown_exclusion_amended.2.1
      (RoundRobin.mk [Node.mk 0 1 1 0 1 10, Node.mk 0 1 1 1 0 0] 2 (some (HealthCheckConfig.mk 1 10)))
      (HealthCheckConfig.mk 1 10) 5 0 (Node.mk 0 1 1 0 1 10) rfl (by decide) (by decide)
      (by decide) (by decide) (by decide) ⟨Node.mk 0 1 1 1 0 0, by decide, by decide⟩
  · exact C2_cooldown_exclusion_amended.2.2
      (RoundRobin.mk [Node.mk 0 1 1 0 1 3, Node.mk 0 1 1 1 0 0] 2 (some (HealthCheckConfig.mk 1 10)))
      (HealthCheckConfig.mk 1 10) 5 0 (Node.mk 0 1 1 0 1 3) rfl (by decide) (by decide)
      (by decide) (by decide)

/-- Claim C4 counterexample: the claim states that each selection of a node by
`next()` (each call returning its token) increases its effective weight by 1
while below nominal.  With both nodes of a `[2, 2]` balancer in cooldown
(`max_fails = 1`, failed at time 0, `ew` forced to 1 < nominal 2), the call
`next` at time 5 returns token 0 through the fail-open fallback, yet node 0's
effective weight stays 1 — a selection without the promised increment. -/
theorem C4_counterexample :
    ((((RoundRobin.new [2, 2] (some (HealthCheckConfig.mk 1 10))).on_failure 0 0).on_failure 1 0).nodes.map
        Node.ew = [1, 1]) ∧
    ((((RoundRobin.new [2, 2] (some (HealthCheckConfig.mk 1 10))).on_failure 0 0).on_failure 1 0).nodes.map
        Node.weight = [2, 2]) ∧
    (((((RoundRobin.new [2, 2] (some (HealthCheckConfig.mk 1 10))).on_failure 0 0).on_failure 1 0).next 5).1
        = some 0) ∧
    (((((RoundRobin.new [2, 2] (some (HealthCheckConfig.mk 1 10))).on_failure 0 0).on_failure 1 0).next 5).2.nodes.map
        Node.ew = [1, 1]) := by
  refine ⟨by decide, by decide, by decide, by decide⟩

/-- Claim C4 (amended), two parts.  Part 1: an `on_failure` call that brings a
node's failure count to at least `max_fails` forces that node's effective
weight to 1 (and stamps the cooldown).  Part 2: when `next` returns a node's
token as the winner of the selection pass — which is every return with at
least one eligible node; the amendment excludes fail-open fallback returns,
which the counterexample shows perform no increment — the node's effective
weight grows by exactly 1 if it was below its nominal weight and is left
unchanged once it equals it. -/
theorem C4_gradual_recovery_amended :
    (∀ (s : RoundRobin) (cfg : HealthCheckConfig) (t now j : Nat) (nj : Node),
      s.config = some cfg → (s.nodes.map Node.token).Nodup →
      s.nodes[j]? = some nj → nj.token = t →
      cfg.max_fails ≤ (nj.fails + 1) % u32lim →
      ∃ m, (s.on_failure t now).nodes[j]? = some m ∧ m.ew = 1 ∧ m.weight = nj.weight ∧
        m.fails = (nj.fails + 1) % u32lim ∧
        m.checked = (now + cfg.fail_timeout_secs) % u32lim) ∧
    (∀ (s : RoundRobin) (now t j : Nat) (nj : Node),
      2 ≤ s.total → (s.nodes.map Node.token).Nodup →
      s.nodes[j]? = some nj → nj.token = t →
      (∃ n ∈ s.nodes, passSkip s.config now n = false) →
      (s.next now).1 = some t →
      ∃ m, ((s.next now).2).nodes[j]? = some m ∧
        m.ew = (if nj.ew < nj.weight then nj.ew + 1 else nj.ew) ∧ m.weight = nj.weight) := by
  constructor
  · intro s cfg t now j nj hcfg hnd hj ht hthr
    have hjlt : j < s.nodes.length := (List.getElem?_eq_some_iff.mp hj).1
    rw [on_failure_at s cfg t now j nj hcfg hj ht
      (fun k nk hk hklt => token_unique s.nodes j nj t hnd hj ht k nk hk (Nat.ne_of_lt hklt))]
    have hfu : failUpd cfg now nj = { nj with
        fails := (nj.fails + 1) % u32lim,
        checked := (now + cfg.fail_timeout_secs) % u32lim,
        ew := 1 } := by
      unfold failUpd
      rw [if_pos hthr]
    refine ⟨failUpd cfg now nj, ?_, ?_, ?_, ?_, ?_⟩
    · simpa using List.getElem?_set_self (a := failUpd cfg now nj) hjlt
    · rw [hfu]
    · rw [hfu]
    · rw [hfu]
    · rw [hfu]
  · intro s now t j nj h2 hnd hj ht helig hret
    have h1 : ¬s.total ≤ 1 := by omega
    obtain ⟨ne, hne, hneskip⟩ := helig
    have hjlt : j < s.nodes.length := (List.getElem?_eq_some_iff.mp hj).1
    rcases hb : (passLoop s.config now s.nodes 0 0 none none).best with _ | b
    · obtain ⟨-, hall⟩ := passLoop_best_none s.config now s.nodes 0 0 none none hb
      rw [hall ne hne] at hneskip
      exact Bool.noConfusion hneskip
    · rcases passLoop_best_mem s.config now s.nodes 0 0 none none b hb with
        hl | ⟨-, mb, hm, hmbskip, -⟩
      · exact absurd hl (by simp)
      · rw [Nat.sub_zero] at hm
        have hout : (passLoop s.config now s.nodes 0 0 none none).nodes[b.1]?
            = some (passNode s.config now mb) := by
          rw [passLoop_nodes, List.getElem?_map, hm]
          rfl
        have houtlen : j < (passLoop s.config now s.nodes 0 0 none none).nodes.length := by
          rw [passLoop_nodes, List.length_map]
          exact hjlt
        rw [next_winner s now h1 b _ hb hout] at hret ⊢
        have hret' : some (passNode s.config now mb).token = some t := hret
        rw [passNode_token] at hret'
        have htok : mb.token = t := Option.some.inj hret'
        by_cases hbj : b.1 = j
        · subst hbj
          rw [hj] at hm
          obtain rfl := Option.some.inj hm
          refine ⟨winnerUpd (passNode s.config now nj)
            (passLoop s.config now s.nodes 0 0 none none).tw, ?_, ?_, ?_⟩
          · simpa using List.getElem?_set_self
              (a := winnerUpd (passNode s.config now nj)
                (passLoop s.config now s.nodes 0 0 none none).tw) houtlen
          · rw [winnerUpd_ew, passNode_ew, passNode_weight]
          · rw [winnerUpd_weight, passNode_weight]
        · exact absurd htok (token_unique s.nodes j nj t hnd hj ht b.1 mb hm hbj)

/-- Claim C4 witness: part 1 on a `[1, 2]` balancer with `max_fails = 1`
(one failure collapses the effective weight); part 2 on the `[1, 2]` balancer
without health checking, whose first call selects node 1 at full weight. -/
theorem C4_gradual_recovery_amended_witness :
    (∃ m, ((RoundRobin.new [1, 2] (some (HealthCheckConfig.mk 1 10))).on_failure 0 7).nodes[0]?
        = some m ∧ m.ew = 1 ∧ m.weight = (Node.mk 0 1 1 0 0 0 : Node).weight ∧
      m.fails = ((Node.mk 0 1 1 0 0 0 : Node).fails + 1) % u32lim ∧
      m.checked = (7 + (HealthCheckConfig.mk 1 10).fail_timeout_secs) % u32lim) ∧
    (∃ m, (((RoundRobin.new [1, 2] none).next 0).2).nodes[1]? = some m ∧
      m.ew = (if (Node.mk 0 2 2 1 0 0 : Node).ew < (Node.mk 0 2 2 1 0 0 : Node).weight
              then (Node.mk 0 2 2 1 0 0 : Node).ew + 1 else (Node.mk 0 2 2 1 0 0 : Node).ew) ∧
      m.weight = (Node.mk 0 2 2 1 0 0 : Node).weight) := by
  constructor
  · exact C4_gradual_recovery_amended.1 (RoundRobin.new [1, 2] (some (HealthCheckConfig.mk 1 10)))
      (HealthCheckConfig.mk 1 10) 0 7 0 (Node.mk 0 1 1 0 0 0) rfl (by decide) (by decide) rfl
      (by decide)
  · exact C4_gradual_recovery_amended.2 (RoundRobin.new [1, 2] none) 0 1 1 (Node.mk 0 2 2 1 0 0)
      (by decide) (by decide) (by decide) rfl ⟨Node.mk 0 1 1 0 0 0, by decide, by decide⟩
      (by decide)

/-! ### The wrapping `i16` layer -/

theorem i16wrap_range (x : Int) : -32768 ≤ i16wrap x ∧ i16wrap x ≤ 32767 := by
  unfold i16wrap
  omega

theorem nextNW_add (now : Nat) : ∀ (a b : Nat) (s : RoundRobin),
    s.nextNW now (a + b) = (s.nextNW now a).nextNW now b := by
  intro a
  induction a with
  | zero => intro b s; rw [Nat.zero_add]; rfl
  | succ a ih =>
    intro b s
    rw [Nat.succ_add]
    show ((s.nextW now).2).nextNW now (a + b) = _
    rw [ih b (s.nextW now).2]
    rfl

set_option maxRecDepth 1000000 in
set_option maxHeartbeats 4000000 in
theorem s9_chunk1 : (RoundRobin.new w9 none).nextNW 0 64 = s9w64 := by decide

set_option maxRecDepth 1000000 in
set_option maxHeartbeats 4000000 in
theorem s9_chunk2 : s9w64.nextNW 0 64 = s9w128 := by decide

set_option maxRecDepth 1000000 in
set_option maxHeartbeats 4000000 in
theorem s9_chunk3 : s9w128.nextNW 0 64 = s9w192 := by decide

set_option maxRecDepth 1000000 in
set_option maxHeartbeats 4000000 in
theorem s9_chunk4 : (s9w192.nextNW 0 64).nodes[127]?
    = some (Node.mk 32513 255 255 127 0 0) := by decide

set_option maxRecDepth 100000 in
/-- Claim C9 counterexample on genuine `u8` weights: the balancer over `w9` —
128 nodes of weight 255 and one of weight 127, every weight a legal `u8`,
129 ≤ 255 nodes, nominal weights summing to exactly 32767 — reaches, after 256
`next` calls (wrapping model; no addition leaves the `i16` range in those 256
passes, so the trace is also the debug-build trace), a state in which node 127
holds `current_weight` 32513 with effective weight 255.  The 257th call's
update `p.cw += p.ew as i16` for that node computes 32513 + 255 = 32768,
outside the `i16` range (maximum 32767): a release build stores the wrapped
value `-32768` instead of the mathematical sum, a debug build panics. -/
theorem C9_counterexample_u8 :
    (w9.all (fun w => decide (w ≤ 255)) = true) ∧
    (w9.length = 129) ∧
    (((RoundRobin.new w9 none).nodes.map Node.weight).sum = 32767) ∧
    (((RoundRobin.new w9 none).nextNW 0 256).nodes[127]?
      = some (Node.mk 32513 255 255 127 0 0)) ∧
    (32767 < (Node.mk 32513 255 255 127 0 0 : Node).cw
      + ((Node.mk 32513 255 255 127 0 0 : Node).ew : Int)) ∧
    (i16wrap ((Node.mk 32513 255 255 127 0 0 : Node).cw
        + ((Node.mk 32513 255 255 127 0 0 : Node).ew : Int))
      ≠ (Node.mk 32513 255 255 127 0 0 : Node).cw
        + ((Node.mk 32513 255 255 127 0 0 : Node).ew : Int)) := by
  refine ⟨by decide, by decide, by decide, ?_, by decide, by decide⟩
  rw [show (256 : Nat) = 64 + 192 from rfl, nextNW_add, s9_chunk1,
    show (192 : Nat) = 64 + 128 from rfl, nextNW_add, s9_chunk2,
    show (128 : Nat) = 64 + 64 from rfl, nextNW_add, s9_chunk3]
  exact s9_chunk4

end RealmLB
